import Mathlib

/-!
# Verification of the Binance futures grid-trading engine

Shallow embedding of the order-lifecycle and position-reconciliation engine
of the repository (primary sources: `v3 - hft - 100% working/
binance_hft_market_maker.py`, `v1 - originalone - with volume/
gridstrategyv1.py`, `bot.py`).  Prices and quantities are modelled as exact
rationals; the exchange gateway is modelled by explicit inputs (position
lists, open-order id lists, a placement oracle) and effect traces.
-/

namespace GridBot

/-- Model of `binance.helpers.round_step_size`: round a quantity down to a multiple of
`step_size` (`quantity - quantity % step`, which for positive arguments is
flooring to the step grid). -/
def round_step_size (quantity step_size : ℚ) : ℚ :=
  step_size * (⌊quantity / step_size⌋ : ℤ)

/-- One entry of the list returned by `client.futures_position_information`,
restricted to the fields the engine reads (v3 reads `symbol`, `positionAmt`,
`entryPrice`; leverage comes from the bot config in v3). -/
structure PositionInfo where
  symbol : String
  positionAmt : ℚ
  entryPrice : ℚ
deriving DecidableEq, Repr

/-- The configuration fields of `BotConfig` consumed by the take-profit
calculation in v3. -/
structure BotConfig where
  symbol : String
  leverage : ℚ
  take_profit_percent : ℚ
deriving DecidableEq, Repr

/-- Computes `margin = (entry_price * abs(position_amt)) / leverage` (v3 line
`margin = (entry_price * abs(position_amt)) / leverage`). -/
def margin_of (entry_price position_amt leverage : ℚ) : ℚ :=
  (entry_price * |position_amt|) / leverage

/-- Computes `profit = margin * (take_profit_percent / 100)`. -/
def profit_of (margin take_profit_percent : ℚ) : ℚ :=
  margin * (take_profit_percent / 100)

/-- The raw (pre-rounding) take-profit price: `entry + profit/amt` for a
LONG (`position_amt > 0`), `entry - profit/|amt|` for a SHORT
(`position_amt < 0`), no price when flat. -/
def tp_raw (entry_price position_amt profit : ℚ) : Option ℚ :=
  if position_amt > 0 then some (entry_price + profit / position_amt)
  else if position_amt < 0 then some (entry_price - profit / |position_amt|)
  else none

/-- Model of `BinanceBot.calculate_take_profit_level` (v3): find the first position
entry for the configured symbol with nonzero `positionAmt`; if none, return
no target.  Otherwise compute margin, profit and the direction-dependent
take-profit price; if that price is truthy (nonzero), round it to the tick
size and return it with `abs(position_amt)`. -/
def calculate_take_profit_level (cfg : BotConfig) (tick_size : ℚ)
    (positions : List PositionInfo) : Option (ℚ × ℚ) :=
  match positions.find? (fun p => p.symbol == cfg.symbol && p.positionAmt != 0) with
  | none => none
  | some position =>
    let entry_price := position.entryPrice
    let position_amt := position.positionAmt
    let leverage := cfg.leverage
    let margin := margin_of entry_price position_amt leverage
    let profit := profit_of margin cfg.take_profit_percent
    match tp_raw entry_price position_amt profit with
    | some tp_price =>
        if tp_price ≠ 0 then
          some (round_step_size tp_price tick_size, |position_amt|)
        else none
    | none => none

/-- Order side (`SIDE_BUY` / `SIDE_SELL`). -/
inductive Side
  | buy
  | sell
deriving DecidableEq, Repr

/-- The record the bot stores per tracked order in `self.active_orders`
(`{'side': ..., 'price': ...}`). -/
structure OrderRec where
  side : Side
  price : ℚ
deriving DecidableEq, Repr

/-- The ledger `self.active_orders`: exchange order id with side/price. -/
abbrev Ledger := List (Nat × OrderRec)

/-- Replacement price used by `BinanceBot.monitor_orders` (v3/v6) for a
tracked order that left the open-order list: a filled SELL regenerates one
tick higher (`round_step_size(price + tick_size, tick_size)`), a filled BUY
one tick lower. -/
def replacement_price (tick_size : ℚ) (r : OrderRec) : ℚ :=
  match r.side with
  | Side.sell => round_step_size (r.price + tick_size) tick_size
  | Side.buy => round_step_size (r.price - tick_size) tick_size

/-- One reconciliation cycle of `BinanceBot.monitor_orders` (v3/v6): for each
tracked order absent from the exchange open-order id list, drop it from the
ledger, submit one replacement via `place` (the gateway's
`futures_create_order`, returning the new order id on success, `none` on a
rejected placement) and, on success, track the replacement.  Returns the new
ledger together with the list of submissions attempted this cycle. -/
def monitor_orders_cycle (tick_size : ℚ) (place : Side → ℚ → Option Nat)
    (open_order_ids : List Nat) : Ledger → Ledger × List (Side × ℚ)
  | [] => ([], [])
  | e :: rest =>
    let r := monitor_orders_cycle tick_size place open_order_ids rest
    if e.1 ∈ open_order_ids then (e :: r.1, r.2)
    else
      let np := replacement_price tick_size e.2
      match place e.2.side np with
      | some nid => ((nid, ⟨e.2.side, np⟩) :: r.1, (e.2.side, np) :: r.2)
      | none => (r.1, (e.2.side, np) :: r.2)

/-- The ids the gateway hands back for the replacement orders a cycle places
(deterministic placement oracle, so they are recomputable from the inputs). -/
def placed_ids (tick_size : ℚ) (place : Side → ℚ → Option Nat)
    (open_order_ids : List Nat) : Ledger → List Nat
  | [] => []
  | e :: rest =>
    let r := placed_ids tick_size place open_order_ids rest
    if e.1 ∈ open_order_ids then r
    else
      match place e.2.side (replacement_price tick_size e.2) with
      | some nid => nid :: r
      | none => r

/-- A cycle in which every tracked order is still open submits nothing and
leaves the ledger unchanged. -/
theorem monitor_orders_cycle_all_open (tick_size : ℚ)
    (place : Side → ℚ → Option Nat) (open_order_ids : List Nat) :
    ∀ led : Ledger, (∀ e ∈ led, e.1 ∈ open_order_ids) →
      monitor_orders_cycle tick_size place open_order_ids led = (led, []) := by
  intro led
  induction led with
  | nil => intro _; rfl
  | cons e rest ih =>
    intro h
    have he : e.1 ∈ open_order_ids := h e (List.mem_cons_self e rest)
    have hrest := ih (fun x hx => h x (List.mem_cons_of_mem e hx))
    simp only [monitor_orders_cycle, hrest, if_pos he]

/-- Every id tracked after a cycle is either a still-open previously tracked
id or one of the ids the gateway returned for this cycle's placements. -/
theorem monitor_orders_cycle_keys (tick_size : ℚ)
    (place : Side → ℚ → Option Nat) (open_order_ids : List Nat) :
    ∀ led : Ledger, ∀ e ∈ (monitor_orders_cycle tick_size place open_order_ids led).1,
      e.1 ∈ open_order_ids ∨ e.1 ∈ placed_ids tick_size place open_order_ids led := by
  intro led
  induction led with
  | nil => intro e he; simp [monitor_orders_cycle] at he
  | cons hd rest ih =>
    intro e he
    by_cases hopen : hd.1 ∈ open_order_ids
    · simp only [monitor_orders_cycle, if_pos hopen, placed_ids] at he ⊢
      rcases List.mem_cons.mp he with h | h
      · left; rw [h]; exact hopen
      · exact ih e h
    · simp only [monitor_orders_cycle, if_neg hopen, placed_ids] at he ⊢
      cases hplace : place hd.2.side (replacement_price tick_size hd.2) with
      | some nid =>
        rw [hplace] at he
        rcases List.mem_cons.mp he with h | h
        · right; rw [h]; exact List.mem_cons_self nid _
        · rcases ih e h with h1 | h1
          · exact Or.inl h1
          · exact Or.inr (List.mem_cons_of_mem nid h1)
      | none =>
        rw [hplace] at he
        exact ih e he

/-- Every id the placement oracle hands out during a cycle is an id the
oracle returns on some placement request. -/
theorem placed_ids_mem (tick_size : ℚ) (place : Side → ℚ → Option Nat)
    (open_order_ids : List Nat) :
    ∀ led : Ledger, ∀ n ∈ placed_ids tick_size place open_order_ids led,
      ∃ s p, place s p = some n := by
  intro led
  induction led with
  | nil => intro n hn; simp [placed_ids] at hn
  | cons hd rest ih =>
    intro n hn
    by_cases hopen : hd.1 ∈ open_order_ids
    · simp only [placed_ids, if_pos hopen] at hn
      exact ih n hn
    · simp only [placed_ids, if_neg hopen] at hn
      cases hplace : place hd.2.side (replacement_price tick_size hd.2) with
      | some nid =>
        rw [hplace] at hn
        rcases List.mem_cons.mp hn with h | h
        · exact ⟨hd.2.side, replacement_price tick_size hd.2, by rw [hplace, h]⟩
        · exact ih n h
      | none =>
        rw [hplace] at hn
        exact ih n hn

/-- A cycle in which exactly one tracked order (with a unique id) has left
the open-order list submits exactly its one replacement. -/
theorem monitor_orders_cycle_subs_singleton (tick_size : ℚ)
    (place : Side → ℚ → Option Nat) (open_order_ids : List Nat)
    (oid : Nat) (r : OrderRec) (hgone : oid ∉ open_order_ids) :
    ∀ led : Ledger, (oid, r) ∈ led → (led.map Prod.fst).Nodup →
      (∀ e ∈ led, e ≠ (oid, r) → e.1 ∈ open_order_ids) →
      (monitor_orders_cycle tick_size place open_order_ids led).2 =
        [(r.side, replacement_price tick_size r)] := by
  intro led
  induction led with
  | nil => intro h; cases h
  | cons hd rest ih =>
    intro hmem hnodup honly
    by_cases hhd : hd = (oid, r)
    · subst hhd
      have hid_not : oid ∉ rest.map Prod.fst := by
        rw [List.map_cons] at hnodup
        exact (List.nodup_cons.mp hnodup).1
      have hrest_open : ∀ e ∈ rest, e.1 ∈ open_order_ids := by
        intro e he
        apply honly e (List.mem_cons_of_mem _ he)
        intro heq
        rw [heq] at he
        exact hid_not (List.mem_map_of_mem Prod.fst he)
      have hrest := monitor_orders_cycle_all_open tick_size place
        open_order_ids rest hrest_open
      simp only [monitor_orders_cycle, hrest, if_neg hgone]
      cases place r.side (replacement_price tick_size r) <;> simp
    · have hopen : hd.1 ∈ open_order_ids :=
        honly hd (List.mem_cons_self hd rest) hhd
      have hmem' : (oid, r) ∈ rest := by
        rcases List.mem_cons.mp hmem with h | h
        · exact absurd h.symm hhd
        · exact h
      have hnodup' : (rest.map Prod.fst).Nodup := by
        rw [List.map_cons] at hnodup
        exact (List.nodup_cons.mp hnodup).2
      have honly' : ∀ e ∈ rest, e ≠ (oid, r) → e.1 ∈ open_order_ids :=
        fun e he => honly e (List.mem_cons_of_mem _ he)
      simp only [monitor_orders_cycle, if_pos hopen]
      exact ih hmem' hnodup' honly'

/-- C3: in a reconciliation cycle where the tracked order `oid` (side/price
`r`, id unique in the ledger, all other tracked orders still open) is absent
from the exchange's open-order list, the ledger drops `oid` and exactly one
replacement is submitted: a SELL at `round_step_size(price + tick, tick)`,
a BUY at `round_step_size(price - tick, tick)` (`replacement_price`). -/
theorem monitor_orders_fill_and_replace (tick_size : ℚ)
    (place : Side → ℚ → Option Nat) (open_order_ids : List Nat)
    (led : Ledger) (oid : Nat) (r : OrderRec)
    (hmem : (oid, r) ∈ led)
    (hnodup : (led.map Prod.fst).Nodup)
    (honly : ∀ e ∈ led, e ≠ (oid, r) → e.1 ∈ open_order_ids)
    (hgone : oid ∉ open_order_ids)
    (hfresh : ∀ s p, place s p ≠ some oid) :
    (monitor_orders_cycle tick_size place open_order_ids led).2 =
      [(r.side, replacement_price tick_size r)] ∧
    oid ∉ (monitor_orders_cycle tick_size place open_order_ids led).1.map
      Prod.fst := by
  constructor
  · exact monitor_orders_cycle_subs_singleton tick_size place open_order_ids
      oid r hgone led hmem hnodup honly
  · intro hin
    rcases List.mem_map.mp hin with ⟨e, he, heq⟩
    rcases monitor_orders_cycle_keys tick_size place open_order_ids led
      e he with h1 | h1
    · rw [heq] at h1; exact hgone h1
    · rw [heq] at h1
      rcases placed_ids_mem tick_size place open_order_ids led oid h1
        with ⟨s, p, hp⟩
      exact hfresh s p hp

/-- Witness for C3: ledger tracks a SELL at 100 (id 1) and a BUY at 99
(id 2); the exchange only lists id 2, the gateway assigns id 7 to new
orders.  The cycle submits exactly one SELL at 101 and id 1 leaves the
ledger. -/
theorem monitor_orders_fill_and_replace_witness :
    (monitor_orders_cycle 1 (fun _ _ => some 7) [2]
        [(1, ⟨Side.sell, 100⟩), (2, ⟨Side.buy, 99⟩)]).2 =
      [(Side.sell, 101)] ∧
    1 ∉ ((monitor_orders_cycle 1 (fun _ _ => some 7) [2]
        [(1, ⟨Side.sell, 100⟩), (2, ⟨Side.buy, 99⟩)]).1.map Prod.fst) := by
  have h := monitor_orders_fill_and_replace 1 (fun _ _ => some 7) [2]
      [(1, ⟨Side.sell, 100⟩), (2, ⟨Side.buy, 99⟩)] 1 ⟨Side.sell, 100⟩
      (List.mem_cons_self _ _) (by simp)
      ?honly (by simp) (fun s p => by simp)
  case honly =>
    intro e he hne
    rcases List.mem_cons.mp he with h1 | h1
    · exact absurd h1 hne
    · rcases List.mem_cons.mp h1 with h2 | h2
      · rw [h2]; exact List.mem_cons_self 2 []
      · cases h2
  refine ⟨?_, h.2⟩
  rw [h.1]
  have : replacement_price 1 ⟨Side.sell, 100⟩ = 101 := by
    simp only [replacement_price, round_step_size]
    norm_num
  rw [this]

/-- C4: reconciliation is idempotent.  Run one cycle; if the exchange state
then changes only by the orders that cycle itself placed (the successfully
placed replacements now appear in the open-order list), a second cycle
submits nothing. -/
theorem monitor_orders_idempotent (tick_size : ℚ)
    (place : Side → ℚ → Option Nat) (open_order_ids : List Nat)
    (led : Ledger) :
    (monitor_orders_cycle tick_size place
        (open_order_ids ++ placed_ids tick_size place open_order_ids led)
        (monitor_orders_cycle tick_size place open_order_ids led).1).2 =
      [] := by
  have hsub : ∀ e ∈ (monitor_orders_cycle tick_size place open_order_ids led).1,
      e.1 ∈ open_order_ids ++ placed_ids tick_size place open_order_ids led := by
    intro e he
    rcases monitor_orders_cycle_keys tick_size place open_order_ids led
      e he with h1 | h1
    · exact List.mem_append_left _ h1
    · exact List.mem_append_right _ h1
  rw [monitor_orders_cycle_all_open tick_size place
    (open_order_ids ++ placed_ids tick_size place open_order_ids led)
    (monitor_orders_cycle tick_size place open_order_ids led).1 hsub]

/-- The order plan of `BinanceBot.draw_grid` (v3): with `grid_spacing` set
to the tick size, the loop `for i in range(1, num_of_grids + 1)` places a
SELL at `round_step_size(current_price + grid_spacing * i, tick_size)` and
a BUY at `round_step_size(current_price - grid_spacing * i, tick_size)`.
The list is the sequence of placements the loop performs. -/
def draw_grid_orders (tick_size current_price : ℚ) : ℕ → List (Side × ℚ)
  | 0 => []
  | n + 1 => draw_grid_orders tick_size current_price n ++
      [(Side.sell,
          round_step_size (current_price + tick_size * (n + 1 : ℕ)) tick_size),
       (Side.buy,
          round_step_size (current_price - tick_size * (n + 1 : ℕ)) tick_size)]

/-- Shape of the grid plan, for every level count: the sell placements are
exactly `round(P + i*s)` for `i = 1..n`, the buys are exactly
`round(P - i*s)`, and the plan has `2n` orders. -/
theorem draw_grid_orders_shape (tick_size current_price : ℚ) :
    ∀ n : ℕ,
      (draw_grid_orders tick_size current_price n).filter
          (fun e => e.1 == Side.sell) =
        (List.range n).map (fun j =>
          (Side.sell,
            round_step_size (current_price + tick_size * (j + 1 : ℕ)) tick_size)) ∧
      (draw_grid_orders tick_size current_price n).filter
          (fun e => e.1 == Side.buy) =
        (List.range n).map (fun j =>
          (Side.buy,
            round_step_size (current_price - tick_size * (j + 1 : ℕ)) tick_size)) ∧
      (draw_grid_orders tick_size current_price n).length = 2 * n := by
  intro n
  induction n with
  | zero => refine ⟨rfl, rfl, rfl⟩
  | succ m ih =>
    obtain ⟨h1, h2, h3⟩ := ih
    refine ⟨?_, ?_, ?_⟩
    · simp only [draw_grid_orders, List.filter_append, h1, List.range_succ,
        List.map_append]
      simp
    · simp only [draw_grid_orders, List.filter_append, h2, List.range_succ,
        List.map_append]
      simp
    · simp only [draw_grid_orders, List.length_append, h3]
      simp [Nat.mul_succ]

/-- C5: for every reference price `P`, tick-sized spacing `s` and level
count `n ≥ 1`, the grid plan consists of exactly `n` sell levels at
`round_step_size(P + i*s, s)` and `n` buy levels at
`round_step_size(P - i*s, s)` for `i = 1..n` (here `j` ranges over
`0..n-1` with `i = j+1`), `2n` orders in total. -/
theorem draw_grid_symmetry (tick_size current_price : ℚ) (n : ℕ)
    (hn : 1 ≤ n) :
    (draw_grid_orders tick_size current_price n).filter
        (fun e => e.1 == Side.sell) =
      (List.range n).map (fun j =>
        (Side.sell,
          round_step_size (current_price + tick_size * (j + 1 : ℕ)) tick_size)) ∧
    (draw_grid_orders tick_size current_price n).filter
        (fun e => e.1 == Side.buy) =
      (List.range n).map (fun j =>
        (Side.buy,
          round_step_size (current_price - tick_size * (j + 1 : ℕ)) tick_size)) ∧
    (draw_grid_orders tick_size current_price n).length = 2 * n :=
  draw_grid_orders_shape tick_size current_price n

/-- Witness for C5 at price 100, tick 1, two levels: sells at 101 and 102,
buys at 99 and 98, four orders. -/
theorem draw_grid_symmetry_witness :
    (draw_grid_orders 1 100 2).filter (fun e => e.1 == Side.sell) =
      [(Side.sell, 101), (Side.sell, 102)] ∧
    (draw_grid_orders 1 100 2).filter (fun e => e.1 == Side.buy) =
      [(Side.buy, 99), (Side.buy, 98)] ∧
    (draw_grid_orders 1 100 2).length = 4 := by
  obtain ⟨h1, h2, h3⟩ := draw_grid_symmetry 1 100 2 (by norm_num)
  refine ⟨?_, ?_, h3⟩
  · rw [h1]
    simp only [List.range_succ, List.range_zero, List.map_append, List.map_cons,
      List.map_nil, round_step_size]
    norm_num
  · rw [h2]
    simp only [List.range_succ, List.range_zero, List.map_append, List.map_cons,
      List.map_nil, round_step_size]
    norm_num

/-- Model of `BinanceBot.get_position_direction` (v3): query the gateway's position
information; on the first entry for the symbol classify by the sign of
`positionAmt`; with no matching entry, or on ANY exception from the query,
return `"FLAT"`. -/
def get_position_direction (symbol : String)
    (query : Except Unit (List PositionInfo)) : String :=
  match query with
  | Except.error _ => "FLAT"
  | Except.ok positions =>
    match positions.find? (fun p => p.symbol == symbol) with
    | none => "FLAT"
    | some position =>
      if position.positionAmt > 0 then "LONG"
      else if position.positionAmt < 0 then "SHORT"
      else "FLAT"

/-- The branch test of `monitor_position` (v3): `if direction != "FLAT"`.
`false` selects the flat branch (grid maintenance via `draw_grid`). -/
def monitor_position_in_position (direction : String) : Bool :=
  direction != "FLAT"

/-- The inner-loop check of `monitor_position` (v3):
`if new_direction != direction` triggers `cancel_orders()` and `break`. -/
def direction_changed (direction new_direction : String) : Bool :=
  new_direction != direction

/-- Line `opposing_side = SIDE_SELL if direction == "LONG" else SIDE_BUY`
(`monitor_position`, v3). -/
def opposing_side (direction : String) : Side :=
  if direction == "LONG" then Side.sell else Side.buy

/-- Line `side = SIDE_SELL if direction == "LONG" else SIDE_BUY`
(`place_take_profit_order`, v3). -/
def tp_side (direction : String) : Side :=
  if direction == "LONG" then Side.sell else Side.buy

/-- The gateway-effecting steps the engine performs, as a trace. -/
inductive Action
  | cancelSide (side : Side)
  | cancelAll
  | placeLimit (side : Side) (quantity price : ℚ)
deriving DecidableEq, Repr

/-- Whether an action submits an order. -/
def is_order_submission : Action → Bool
  | Action.placeLimit _ _ _ => true
  | _ => false

/-- The FLAT → IN_POSITION actions of `monitor_position` (v3): cancel the
`opposing_side` orders, then compute the take-profit level and, if both the
price and the quantity are truthy (`if tp_price and tp_quantity`), place
the take-profit order on the `tp_side`. -/
def position_transition_actions (direction : String)
    (tp : Option (ℚ × ℚ)) : List Action :=
  Action.cancelSide (opposing_side direction) ::
    (match tp with
     | some (tp_price, tp_quantity) =>
        if tp_price ≠ 0 ∧ tp_quantity ≠ 0 then
          [Action.placeLimit (tp_side direction) tp_quantity tp_price]
        else []
     | none => [])

/-- The IN_POSITION tick of `monitor_position` (v3) once the direction is
unchanged: recompute the level; if the new price is truthy and differs from
the tracked one (`if new_tp_price and new_tp_price != tp_price`), run
`cancel_orders()` — no side filter, every open order for the symbol — and
place the new take-profit order. -/
def tp_update_actions (direction : String) (tp_price : Option ℚ)
    (new_tp : Option (ℚ × ℚ)) : List Action :=
  match new_tp with
  | some (new_tp_price, new_tp_quantity) =>
    if new_tp_price ≠ 0 ∧ some new_tp_price ≠ tp_price then
      [Action.cancelAll,
       Action.placeLimit (tp_side direction) new_tp_quantity new_tp_price]
    else []
  | none => []

/-- Effect of one action on the exchange's resting orders for the symbol
(`cancel_orders` fetches the open orders — optionally filtered by side —
and cancels each; a placement appends an order under a fresh id). -/
def apply_action (fresh : Nat) (orders : List (Nat × OrderRec)) :
    Action → List (Nat × OrderRec)
  | Action.cancelAll => []
  | Action.cancelSide s => orders.filter (fun e => e.2.side ≠ s)
  | Action.placeLimit side _ price => orders ++ [(fresh, ⟨side, price⟩)]

/-- Effect of an action trace, threading a fresh-id counter. -/
def apply_actions (fresh : Nat) (orders : List (Nat × OrderRec)) :
    List Action → List (Nat × OrderRec)
  | [] => orders
  | a :: rest => apply_actions (fresh + 1) (apply_action fresh orders a) rest

/-- C6 counterexample: on detecting a LONG position the monitor cancels the
SELL side (`opposing_side = SIDE_SELL if direction == "LONG"`), never the
BUY side: the first action is `cancelSide sell`, no `cancelSide buy`
occurs, and a resting BUY grid order survives the whole transition. -/
theorem position_transition_long_cancels_sell :
    (position_transition_actions "LONG" (some (101, 1))).head? =
      some (Action.cancelSide Side.sell) ∧
    Action.cancelSide Side.buy ∉ position_transition_actions "LONG" (some (101, 1)) ∧
    apply_actions 10 [(1, ⟨Side.buy, 99⟩)]
        (position_transition_actions "LONG" (some (101, 1))) =
      [(1, ⟨Side.buy, 99⟩), (11, ⟨Side.sell, 101⟩)] := by
  decide

/-- C6 amended: on the FLAT → IN_POSITION transition the monitor cancels
all resting orders on the position's CLOSING-direction side — SELL for a
LONG, BUY for a SHORT — before placing the initial take-profit order; the
other side's orders survive and the take-profit order is appended. -/
theorem position_transition_cancels_closing_side (direction : String)
    (orders : List (Nat × OrderRec)) (fresh : Nat) (tp_price tp_quantity : ℚ)
    (hp : tp_price ≠ 0) (hq : tp_quantity ≠ 0) :
    position_transition_actions direction (some (tp_price, tp_quantity)) =
      [Action.cancelSide (opposing_side direction),
       Action.placeLimit (tp_side direction) tp_quantity tp_price] ∧
    apply_actions fresh orders
        (position_transition_actions direction (some (tp_price, tp_quantity))) =
      orders.filter (fun e => e.2.side ≠ opposing_side direction) ++
        [(fresh + 1, ⟨tp_side direction, tp_price⟩)] ∧
    opposing_side "LONG" = Side.sell ∧
    opposing_side "SHORT" = Side.buy := by
  have hact : position_transition_actions direction (some (tp_price, tp_quantity)) =
      [Action.cancelSide (opposing_side direction),
       Action.placeLimit (tp_side direction) tp_quantity tp_price] := by
    simp only [position_transition_actions, if_pos (And.intro hp hq)]
  refine ⟨hact, ?_, rfl, rfl⟩
  rw [hact]
  have hside : tp_side direction = opposing_side direction := rfl
  simp only [apply_actions, apply_action, hside]

/-- Witness for C6 (amended): LONG detected with take-profit (101, 1),
resting orders a BUY at 99 (id 1) and a SELL at 105 (id 2): the SELL is
cancelled, the BUY survives, the take-profit SELL is placed under id 11. -/
theorem position_transition_cancels_closing_side_witness :
    apply_actions 10 [(1, ⟨Side.buy, 99⟩), (2, ⟨Side.sell, 105⟩)]
        (position_transition_actions "LONG" (some (101, 1))) =
      [(1, ⟨Side.buy, 99⟩), (11, ⟨Side.sell, 101⟩)] := by
  have h := position_transition_cancels_closing_side "LONG"
      [(1, ⟨Side.buy, 99⟩), (2, ⟨Side.sell, 105⟩)] 10 101 1
      (by norm_num) (by norm_num)
  rw [h.2.1]
  rfl

/-- C7 counterexample: while LONG with tracked take-profit price 100, a
recomputed level (101, 1) makes the monitor run `cancel_orders()` with no
side filter: the resting BUY grid order at 99 (id 1) does NOT remain — the
only surviving order is the new take-profit SELL. -/
theorem tp_update_not_frame_preserving :
    apply_actions 10 [(1, ⟨Side.buy, 99⟩), (2, ⟨Side.sell, 100⟩)]
        (tp_update_actions "LONG" (some 100) (some (101, 1))) =
      [(11, ⟨Side.sell, 101⟩)] ∧
    (1, (⟨Side.buy, 99⟩ : OrderRec)) ∉
      apply_actions 10 [(1, ⟨Side.buy, 99⟩), (2, ⟨Side.sell, 100⟩)]
        (tp_update_actions "LONG" (some 100) (some (101, 1))) := by
  decide

/-- C7 amended: when the recomputed take-profit price is truthy and differs
from the tracked one, the monitor cancels EVERY open order for the symbol
(`cancel_orders()` with no side filter) and then places the new take-profit
order: whatever was resting, the only order left is the new one. -/
theorem tp_update_cancels_everything (direction : String) (prev : Option ℚ)
    (orders : List (Nat × OrderRec)) (fresh : Nat) (np nq : ℚ)
    (hp : np ≠ 0) (hne : some np ≠ prev) :
    tp_update_actions direction prev (some (np, nq)) =
      [Action.cancelAll, Action.placeLimit (tp_side direction) nq np] ∧
    apply_actions fresh orders (tp_update_actions direction prev (some (np, nq))) =
      [(fresh + 1, ⟨tp_side direction, np⟩)] := by
  have hact : tp_update_actions direction prev (some (np, nq)) =
      [Action.cancelAll, Action.placeLimit (tp_side direction) nq np] := by
    simp only [tp_update_actions, if_pos (And.intro hp hne)]
  refine ⟨hact, ?_⟩
  rw [hact]
  rfl

/-- Witness for C7 (amended): LONG, tracked price 100, recomputed (101, 1),
orders a BUY at 99 and the old take-profit SELL at 100; afterwards only the
new SELL at 101 (id 11) rests. -/
theorem tp_update_cancels_everything_witness :
    apply_actions 10 [(1, ⟨Side.buy, 99⟩), (2, ⟨Side.sell, 100⟩)]
        (tp_update_actions "LONG" (some 100) (some (101, 1))) =
      [(11, ⟨Side.sell, 101⟩)] := by
  have h := tp_update_cancels_everything "LONG" (some 100)
      [(1, ⟨Side.buy, 99⟩), (2, ⟨Side.sell, 100⟩)] 10 101 1
      (by norm_num) (by simp)
  exact h.2

/-- C9: when every entry for the configured symbol has zero `positionAmt`,
`calculate_take_profit_level` returns no target, and the position monitor's
guard `if tp_price and tp_quantity` then submits no take-profit order. -/
theorem calc_tp_level_flat (cfg : BotConfig) (tick_size : ℚ)
    (positions : List PositionInfo)
    (hflat : ∀ p ∈ positions, p.symbol = cfg.symbol → p.positionAmt = 0) :
    calculate_take_profit_level cfg tick_size positions = none ∧
    ∀ direction : String,
      (position_transition_actions direction
          (calculate_take_profit_level cfg tick_size positions)).filter
        is_order_submission = [] := by
  have hfind : positions.find?
      (fun p => p.symbol == cfg.symbol && p.positionAmt != 0) = none := by
    rw [List.find?_eq_none]
    intro p hp hcontra
    rw [Bool.and_eq_true] at hcontra
    have hsym : p.symbol = cfg.symbol := by
      have h1 := hcontra.1
      exact beq_iff_eq.mp h1
    have hne : p.positionAmt ≠ 0 := bne_iff_ne.mp hcontra.2
    exact hne (hflat p hp hsym)
  have hnone : calculate_take_profit_level cfg tick_size positions = none := by
    unfold calculate_take_profit_level
    rw [hfind]
  refine ⟨hnone, ?_⟩
  intro direction
  rw [hnone]
  simp [position_transition_actions, is_order_submission]

/-- Witness for C9: a single zero-amount entry for the symbol gives no
target, and a hypothetical LONG transition submits no order. -/
theorem calc_tp_level_flat_witness :
    calculate_take_profit_level ⟨"BTCUSDT", 10, 1/2⟩ 1
      [⟨"BTCUSDT", 0, 50000⟩] = none ∧
    (position_transition_actions "LONG"
        (calculate_take_profit_level ⟨"BTCUSDT", 10, 1/2⟩ 1
          [⟨"BTCUSDT", 0, 50000⟩])).filter is_order_submission = [] := by
  have h := calc_tp_level_flat ⟨"BTCUSDT", 10, 1/2⟩ 1
      [⟨"BTCUSDT", 0, 50000⟩] ?_
  · exact ⟨h.1, h.2 "LONG"⟩
  · intro p hp _
    rw [List.mem_singleton.mp hp]

/-- C10: any exception from the position query makes
`get_position_direction` return `"FLAT"` — the very value a genuinely flat
position book produces — so the caller cannot tell a query error from a
closed position: the monitor's `if direction != "FLAT"` test selects the
flat branch (grid maintenance), and, when previously LONG, the inner
`if new_direction != direction` check fires (cancel-all) on a mere error. -/
theorem get_position_direction_error_indistinguishable (symbol : String)
    (err : Unit) (positions : List PositionInfo)
    (hflat : ∀ p ∈ positions, p.symbol = symbol → p.positionAmt = 0) :
    get_position_direction symbol (Except.error err) = "FLAT" ∧
    get_position_direction symbol (Except.error err) =
      get_position_direction symbol (Except.ok positions) ∧
    monitor_position_in_position
      (get_position_direction symbol (Except.error err)) = false ∧
    direction_changed "LONG"
      (get_position_direction symbol (Except.error err)) = true := by
  refine ⟨rfl, ?_, rfl, rfl⟩
  show "FLAT" = get_position_direction symbol (Except.ok positions)
  cases hfind : positions.find? (fun p => p.symbol == symbol) with
  | none => simp only [get_position_direction, hfind]
  | some p =>
    have hmem : p ∈ positions := List.mem_of_find?_eq_some hfind
    have hsat := List.find?_some hfind
    have hsym : p.symbol = symbol := by
      rw [beq_iff_eq] at hsat
      exact hsat
    have hzero : p.positionAmt = 0 := hflat p hmem hsym
    simp only [get_position_direction, hfind, hzero]
    norm_num

/-- Witness for C10: symbol BTCUSDT, a failing query, and a book whose only
entry is flat. -/
theorem get_position_direction_error_indistinguishable_witness :
    get_position_direction "BTCUSDT" (Except.error ()) = "FLAT" ∧
    get_position_direction "BTCUSDT" (Except.error ()) =
      get_position_direction "BTCUSDT" (Except.ok [⟨"BTCUSDT", 0, 50000⟩]) ∧
    monitor_position_in_position
      (get_position_direction "BTCUSDT" (Except.error ())) = false ∧
    direction_changed "LONG"
      (get_position_direction "BTCUSDT" (Except.error ())) = true := by
  apply get_position_direction_error_indistinguishable
  intro p hp _
  rw [List.mem_singleton.mp hp]

/-- A position entry as read by the v1 bot (`gridstrategyv1.py`), which
additionally takes the leverage from the position record itself:
`float(position.get('leverage', 1))` — `none` models a missing field. -/
structure PositionInfoV1 where
  symbol : String
  positionAmt : ℚ
  entryPrice : ℚ
  leverage : Option ℚ
deriving DecidableEq, Repr

/-- Model of `BinanceBot.calculate_take_profit_level` from v1: leverage defaults to 1
when the field is missing, and is reset to 1 when `leverage <= 0`
("Invalid leverage found. Defaulting to 1."); the rounding step is
`10 ** -no_of_decimal_places`; the rest is as in v3. -/
def calculate_take_profit_level_v1 (symbol : String)
    (take_profit_percent : ℚ) (no_of_decimal_places : ℕ)
    (positions : List PositionInfoV1) : Option (ℚ × ℚ) :=
  match positions.find? (fun p => p.symbol == symbol && p.positionAmt != 0) with
  | none => none
  | some position =>
    let entry_price := position.entryPrice
    let position_amt := position.positionAmt
    let leverage0 := position.leverage.getD 1
    let leverage := if leverage0 ≤ 0 then 1 else leverage0
    let margin := margin_of entry_price position_amt leverage
    let profit := profit_of margin take_profit_percent
    match tp_raw entry_price position_amt profit with
    | some tp_price =>
      if tp_price ≠ 0 then
        some (round_step_size tp_price (1 / (10 : ℚ) ^ no_of_decimal_places),
          |position_amt|)
      else none
    | none => none

/-- C8: for every position whose reported leverage is missing (`none`) or
non-positive, v1's `calculate_take_profit_level` computes the margin with
leverage 1 and still returns a take-profit price (no exception, no division
by zero), provided the entry price is positive and the take-profit percent
lies in `[0, 100)`. -/
theorem calc_tp_level_v1_leverage_default (symbol : String)
    (take_profit_percent : ℚ) (no_of_decimal_places : ℕ)
    (positions : List PositionInfoV1) (p : PositionInfoV1)
    (hfind : positions.find?
      (fun q => q.symbol == symbol && q.positionAmt != 0) = some p)
    (hlev : p.leverage = none ∨ ∃ l, p.leverage = some l ∧ l ≤ 0)
    (hentry : 0 < p.entryPrice)
    (hpct0 : 0 ≤ take_profit_percent) (hpct1 : take_profit_percent < 100) :
    calculate_take_profit_level_v1 symbol take_profit_percent
        no_of_decimal_places positions =
      some (round_step_size
        ((tp_raw p.entryPrice p.positionAmt
          (profit_of (margin_of p.entryPrice p.positionAmt 1)
            take_profit_percent)).getD 0)
        (1 / (10 : ℚ) ^ no_of_decimal_places), |p.positionAmt|) := by
  have hamt : p.positionAmt ≠ 0 := by
    have hsat := List.find?_some hfind
    rw [Bool.and_eq_true] at hsat
    exact bne_iff_ne.mp hsat.2
  have hlev1 : (if (p.leverage.getD 1) ≤ 0 then 1 else p.leverage.getD 1) = 1 := by
    rcases hlev with h | ⟨l, hl, hle⟩
    · rw [h]
      norm_num
    · rw [hl]
      simp only [Option.getD_some]
      rw [if_pos hle]
  unfold calculate_take_profit_level_v1
  rw [hfind]
  simp only [hlev1]
  rcases lt_trichotomy p.positionAmt 0 with hneg | hzero | hpos
  · -- SHORT: with leverage 1 the raw price is entry * (1 - pct/100) > 0
    have habs : |p.positionAmt| = -p.positionAmt := abs_of_neg hneg
    have habs_pos : 0 < |p.positionAmt| := abs_pos.mpr hamt
    have hval : p.entryPrice -
        profit_of (margin_of p.entryPrice p.positionAmt 1)
          take_profit_percent / |p.positionAmt| =
        p.entryPrice * (1 - take_profit_percent / 100) := by
      rw [profit_of, margin_of, div_one]
      field_simp
      ring
    have hraw : tp_raw p.entryPrice p.positionAmt
        (profit_of (margin_of p.entryPrice p.positionAmt 1)
          take_profit_percent) =
        some (p.entryPrice -
          profit_of (margin_of p.entryPrice p.positionAmt 1)
            take_profit_percent / |p.positionAmt|) := by
      rw [tp_raw, if_neg (not_lt.mpr hneg.le), if_pos hneg]
    rw [hraw]
    simp only [Option.getD_some]
    rw [if_pos ?_]
    rw [hval]
    apply ne_of_gt
    apply mul_pos hentry
    have : take_profit_percent / 100 < 1 := by
      rw [div_lt_one (by norm_num : (0:ℚ) < 100)]
      exact hpct1
    linarith
  · exact absurd hzero hamt
  · -- LONG: the raw price is entry + a nonnegative increment, hence positive
    have hraw : tp_raw p.entryPrice p.positionAmt
        (profit_of (margin_of p.entryPrice p.positionAmt 1)
          take_profit_percent) =
        some (p.entryPrice +
          profit_of (margin_of p.entryPrice p.positionAmt 1)
            take_profit_percent / p.positionAmt) := by
      rw [tp_raw, if_pos hpos]
    rw [hraw]
    simp only [Option.getD_some]
    rw [if_pos ?_]
    apply ne_of_gt
    have hprofit : 0 ≤ profit_of (margin_of p.entryPrice p.positionAmt 1)
        take_profit_percent := by
      rw [profit_of, margin_of, div_one]
      apply mul_nonneg
      · exact mul_nonneg hentry.le (abs_nonneg _)
      · positivity
    have : 0 ≤ profit_of (margin_of p.entryPrice p.positionAmt 1)
        take_profit_percent / p.positionAmt := div_nonneg hprofit hpos.le
    linarith

/-- Witness for C8: a position whose reported leverage is 0 (entry 50000,
amount 2, percent 0.5, one decimal place): leverage defaults to 1, margin
is 100000, profit 500, and the returned take-profit price is 50250. -/
theorem calc_tp_level_v1_leverage_default_witness :
    calculate_take_profit_level_v1 "BTCUSDT" (1/2) 1
      [⟨"BTCUSDT", 2, 50000, some 0⟩] = some (50250, 2) := by
  have h := calc_tp_level_v1_leverage_default "BTCUSDT" (1/2) 1
      [⟨"BTCUSDT", 2, 50000, some 0⟩] ⟨"BTCUSDT", 2, 50000, some 0⟩
      (List.find?_cons_of_pos _ (by norm_num)) (Or.inr ⟨0, rfl, le_refl 0⟩)
      (by norm_num) (by norm_num) (by norm_num)
  rw [h]
  simp only [tp_raw, margin_of, profit_of, round_step_size]
  norm_num

/-- C1: for every position with `positionAmt > 0` (LONG) found by the scan,
`calculate_take_profit_level` computes `margin = entryPrice*|positionAmt|/leverage`,
`profit = margin*(takeProfitPercent/100)` and returns
`tp = entryPrice + profit/positionAmt` rounded to the price step, together
with `|positionAmt|` (assuming the raw price is truthy, as in the Python
`if tp_price:`).  The witness instantiates the spec's concrete LONG example:
entry 50000, amount 0.002, leverage 10, percent 0.5 give margin 10,
profit 0.05 and tp 50025. -/
theorem calc_tp_level_long_eq (cfg : BotConfig) (tick_size : ℚ)
    (positions : List PositionInfo) (p : PositionInfo)
    (hfind : positions.find? (fun q => q.symbol == cfg.symbol && q.positionAmt != 0) = some p)
    (hpos : 0 < p.positionAmt)
    (htp : p.entryPrice +
      profit_of (margin_of p.entryPrice p.positionAmt cfg.leverage) cfg.take_profit_percent
        / p.positionAmt ≠ 0) :
    calculate_take_profit_level cfg tick_size positions =
      some (round_step_size
        (p.entryPrice +
          profit_of (margin_of p.entryPrice p.positionAmt cfg.leverage) cfg.take_profit_percent
            / p.positionAmt) tick_size,
        |p.positionAmt|) := by
  unfold calculate_take_profit_level
  rw [hfind]
  simp only [tp_raw, if_pos hpos]
  rw [if_pos htp]

/-- Witness for C1, at the spec's LONG example: entryPrice = 50000,
positionAmt = 0.002, leverage = 10, takeProfitPercent = 0.5, tick 0.01:
margin = 10, profit = 0.05, and the function returns (50025, 0.002). -/
theorem calc_tp_level_long_eq_witness :
    margin_of 50000 (1/500) 10 = 10 ∧
    profit_of 10 (1/2) = 1/20 ∧
    calculate_take_profit_level ⟨"BTCUSDT", 10, 1/2⟩ (1/100)
      [⟨"BTCUSDT", 1/500, 50000⟩] = some (50025, 1/500) := by
  have habs : |(1/500 : ℚ)| = 1/500 := by norm_num
  refine ⟨?_, ?_, ?_⟩
  · rw [margin_of, habs]; norm_num
  · rw [profit_of]; norm_num
  · have h := calc_tp_level_long_eq ⟨"BTCUSDT", 10, 1/2⟩ (1/100)
      [⟨"BTCUSDT", 1/500, 50000⟩] ⟨"BTCUSDT", 1/500, 50000⟩
      (List.find?_cons_of_pos _ (by norm_num)) (by norm_num)
      (by simp only [margin_of, profit_of]; rw [habs]; norm_num)
    rw [h]
    simp only [margin_of, profit_of, round_step_size]
    rw [habs]
    norm_num

/-- C2 counterexample: at the spec's SHORT example inputs (entryPrice 60000,
positionAmt −0.3, leverage 10, takeProfitPercent 0.5) the code's margin is
1800, not 90, its profit is 9, not 0.45, and its raw take-profit price is
59970, not 59998.5. -/
theorem calc_tp_short_spec_numbers_false :
    margin_of 60000 (-(3/10)) 10 = 1800 ∧ (1800 : ℚ) ≠ 90 ∧
    profit_of (margin_of 60000 (-(3/10)) 10) (1/2) = 9 ∧ (9 : ℚ) ≠ 45/100 ∧
    tp_raw 60000 (-(3/10)) (profit_of (margin_of 60000 (-(3/10)) 10) (1/2)) =
      some 59970 ∧ (59970 : ℚ) ≠ 119997/2 := by
  have habs : |(-(3/10) : ℚ)| = 3/10 := by norm_num
  have hm : margin_of 60000 (-(3/10)) 10 = 1800 := by
    rw [margin_of, habs]; norm_num
  have hp : profit_of (margin_of 60000 (-(3/10)) 10) (1/2) = 9 := by
    rw [hm, profit_of]; norm_num
  refine ⟨hm, by norm_num, hp, by norm_num, ?_, by norm_num⟩
  rw [hp]
  simp only [tp_raw]
  rw [if_neg (by norm_num), if_pos (by norm_num), habs]
  norm_num

/-- C2 amended: for the SHORT position with entryPrice = 60000,
positionAmt = −0.3, leverage = 10, takeProfitPercent = 0.5, the code yields
margin = 1800, profit = 9, and raw take-profit price
tp = 60000 − 9/0.3 = 59970 before price-step rounding; with tick 0.1 the
function returns (59970, 0.3). -/
theorem calc_tp_short_amended :
    margin_of 60000 (-(3/10)) 10 = 1800 ∧
    profit_of 1800 (1/2) = 9 ∧
    tp_raw 60000 (-(3/10)) 9 = some (60000 - 9/(3/10)) ∧
    (60000 - 9/(3/10) : ℚ) = 59970 ∧
    calculate_take_profit_level ⟨"BTCUSDT", 10, 1/2⟩ (1/10)
      [⟨"BTCUSDT", -(3/10), 60000⟩] = some (59970, 3/10) := by
  have habs : |(-(3/10) : ℚ)| = 3/10 := by norm_num
  refine ⟨?_, ?_, ?_, by norm_num, ?_⟩
  · rw [margin_of, habs]; norm_num
  · rw [profit_of]; norm_num
  · simp only [tp_raw]
    rw [if_neg (by norm_num), if_pos (by norm_num), habs]
  · rw [calculate_take_profit_level, List.find?_cons_of_pos _ (by norm_num)]
    simp only [margin_of, profit_of, tp_raw, round_step_size]
    rw [habs]
    norm_num

end GridBot
